import Mathlib

/-!
Shallow embedding of the organization membership and invite lifecycle
manager of the gitpod repository: the TypeScript `TeamDBImpl` (TypeORM)
and the Go OIDC client-config store (gorm).  Lists model database tables;
`List.find?` models `findOne` (first matching row); saving a loaded entity
models an UPDATE keyed on the entity's primary key; inserts append rows.
-/

deriving instance DecidableEq for Except

namespace Gitpod

/-- Role of an organization (team) membership: `"owner"` or `"member"`. -/
inductive TeamMemberRole where
  | owner
  | member
  deriving DecidableEq

/-- A row of `d_b_team`.  `deleted` is the db-sync column checked by the
member operations; `markedDeleted` is the soft-delete flag set by
`deleteTeam`. -/
structure Team where
  id : String
  name : String
  slug : String
  creationTime : String
  deleted : Bool
  markedDeleted : Bool
  deriving DecidableEq

/-- A row of `d_b_team_membership`. -/
structure TeamMembership where
  id : String
  teamId : String
  userId : String
  role : TeamMemberRole
  creationTime : String
  deleted : Bool
  deriving DecidableEq

/-- A row of `d_b_team_membership_invite`; an absent `invitedEmail` is
modelled as `""` (both are falsy in the JavaScript checks). -/
structure TeamMembershipInvite where
  id : String
  teamId : String
  role : TeamMemberRole
  creationTime : String
  invalidationTime : String
  invitedEmail : String
  deriving DecidableEq

/-- A row of `d_b_org_settings`, keyed by `orgId`. -/
structure OrgSettings where
  orgId : String
  workspaceSharingDisabled : Bool
  deleted : Bool
  deriving DecidableEq

/-- The tables touched by `TeamDBImpl`. -/
structure DBState where
  teams : List Team
  memberships : List TeamMembership
  invites : List TeamMembershipInvite
  orgSettings : List OrgSettings
  deriving DecidableEq

/-- The `ErrorCodes` values thrown by `TeamDBImpl` via `ResponseError`. -/
inductive ErrorCode where
  | NOT_FOUND
  | CONFLICT
  | BAD_REQUEST
  | INVALID_VALUE
  deriving DecidableEq

/-- Result of `addMemberToTeam`: `"added" | "already_member"`. -/
inductive AddResult where
  | added
  | alreadyMember
  deriving DecidableEq

/-- `findTeamById`: `teamRepo.findOne({ id, deleted: false, markedDeleted: false })`. -/
def findTeamById (s : DBState) (teamId : String) : Option Team :=
  s.teams.find? (fun t => t.id == teamId && !t.deleted && !t.markedDeleted)

/-- Saving a loaded team entity: UPDATE keyed on the primary key `id`. -/
def saveTeam (s : DBState) (t : Team) : DBState :=
  { s with teams := s.teams.map (fun x => if x.id == t.id then t else x) }

/-- Model of JavaScript `String.prototype.trim()`: strip leading and
trailing whitespace. -/
def trimStr (s : String) : String :=
  String.mk (((s.toList.dropWhile Char.isWhitespace).reverse.dropWhile Char.isWhitespace).reverse)

/-- ASCII lower-casing of one character. -/
def asciiLower (c : Char) : Char :=
  if c.isUpper then Char.ofNat (c.toNat + 32) else c

/-- ASCII lower-casing of a string. -/
def lowerStr (s : String) : String := String.mk (s.toList.map asciiLower)

/-- JavaScript truthiness of an optional string: `undefined` and `""` are falsy. -/
def optTruthy : Option String → Bool
  | none => false
  | some s => !(s == "")

/-- The regex test `/^[A-Za-z0-9-]+$/`. -/
def isSlugChars (s : String) : Bool :=
  !(s == "") && s.toList.all (fun c => c.isAlphanum || c == '-')

/-- The `if (!!name)` block of `updateTeam`: validates the (trimmed) new
name and applies it to the loaded entity. -/
def applyNameUpdate (existingTeam : Team) (name : Option String) : Except ErrorCode Team :=
  if optTruthy name then
    if (name.getD "").length > 32 then .error .INVALID_VALUE
    else .ok { existingTeam with name := name.getD "" }
  else .ok existingTeam

/-- The `if (!!slug && existingTeam.slug != slug)` block of `updateTeam`:
validates the (trimmed) new slug, probes for a live team already holding
it, and applies it. -/
def applySlugUpdate (s : DBState) (existingTeam t1 : Team) (slug : Option String) :
    Except ErrorCode Team :=
  if optTruthy slug && !(slug.getD "" == existingTeam.slug) then
    if (slug.getD "").length > 63 then .error .INVALID_VALUE
    else if !isSlugChars (slug.getD "") then .error .BAD_REQUEST
    else if (s.teams.find?
        (fun t => t.slug == slug.getD "" && !t.deleted && !t.markedDeleted)).isSome then
      .error .INVALID_VALUE
    else .ok { t1 with slug := slug.getD "" }
  else .ok t1

/-- `updateTeam(teamId, {name, slug})`: rename/reslug inside one transaction.
Mirrors the source order: "no update" check, lookup filtered by both delete
flags, no-change early return, name validation, slug validation with the
uniqueness probe, save. -/
def updateTeam (s : DBState) (teamId : String) (newName newSlug : Option String) :
    Except ErrorCode (Team × DBState) :=
  if !(optTruthy (newName.map trimStr) || optTruthy (newSlug.map trimStr)) then
    .error .BAD_REQUEST
  else
    match s.teams.find? (fun t => t.id == teamId && !t.deleted && !t.markedDeleted) with
    | none => .error .NOT_FOUND
    | some existingTeam =>
      if newName.map trimStr = some existingTeam.name ∧
          newSlug.map trimStr = some existingTeam.slug then
        .ok (existingTeam, s)
      else
        (applyNameUpdate existingTeam (newName.map trimStr)).bind (fun t1 =>
          (applySlugUpdate s existingTeam t1 (newSlug.map trimStr)).bind (fun t2 =>
            .ok (t2, saveTeam s t2)))

/-- Model of the `slugify(name, {lower: true})` library call: lower-case,
spaces to dashes, other non-alphanumeric ASCII characters dropped
(an ASCII approximation of the library, enough for the claims here). -/
def slugifyStr (s : String) : String :=
  String.mk (((lowerStr s).toList.map (fun c => if c == ' ' then '-' else c)).filter
    (fun c => c.isAlphanum || c == '-'))

/-- The slug chosen inside the `createTeam` transaction: the slugified
name, with the random suffix appended when a live team already holds it. -/
def allocatedSlug (s : DBState) (slug0 suffix : String) : String :=
  if (s.teams.find? (fun t => t.slug == slug0 && !t.deleted && !t.markedDeleted)).isSome
  then slug0 ++ "-" ++ suffix
  else slug0

/-- The team row saved inside the `createTeam` transaction. -/
def newTeamRow (s : DBState) (name newTeamId suffix now : String) : Team :=
  { id := newTeamId, name := (trimStr name), slug := allocatedSlug s (slugifyStr (trimStr name)) suffix,
    creationTime := now, deleted := false, markedDeleted := false }

/-- First half of `createTeam`: the `em.transaction` block, which validates
the name, allocates the slug (random suffix on collision) and saves only
the team row.  `newTeamId` stands for `uuidv4()`, `suffix` for
`randomBytes(4).toString("hex")` and `now` for `new Date().toISOString()`. -/
def createTeamTx (s : DBState) (name : String) (newTeamId suffix now : String) :
    Except ErrorCode (Team × DBState) :=
  if name == "" then .error .BAD_REQUEST
  else if (trimStr name).length < 3 then .error .BAD_REQUEST
  else if (trimStr name).length > 64 then .error .BAD_REQUEST
  else if (slugifyStr (trimStr name)).length < 3 then .error .BAD_REQUEST
  else
    .ok (newTeamRow s name newTeamId suffix now,
         { s with teams := s.teams ++ [newTeamRow s name newTeamId suffix now] })

/-- Second half of `createTeam`: the owner-membership insert, performed by a
separate repository call after the transaction above has already
committed. -/
def createTeamMembershipStep (s : DBState) (userId : String) (team : Team) (memId : String) :
    DBState :=
  { s with memberships := s.memberships ++
      [{ id := memId, teamId := team.id, userId := userId, role := TeamMemberRole.owner,
         creationTime := team.creationTime, deleted := false }] }

/-- `createTeam(userId, name)`: the two halves in sequence. -/
def createTeam (s : DBState) (userId name : String) (newTeamId memId suffix now : String) :
    Except ErrorCode (Team × DBState) :=
  match createTeamTx s name newTeamId suffix now with
  | .error e => .error e
  | .ok (team, s1) => .ok (team, createTeamMembershipStep s1 userId team memId)

/-- `deleteOrgSettings(orgId)` (private helper of `deleteTeam`): finds the
live settings row, sets `deleted` and saves it (UPDATE keyed on `orgId`). -/
def deleteOrgSettingsRow (s : DBState) (orgId : String) : DBState :=
  match s.orgSettings.find? (fun r => r.orgId == orgId && !r.deleted) with
  | none => s
  | some row =>
    { s with orgSettings := (s.orgSettings.map
        (fun r => if r.orgId == row.orgId then { row with deleted := true } else r)) }

/-- `deleteTeam(teamId)`: looks the team up through `findTeamById` (which
filters both `deleted` and `markedDeleted`), sets `markedDeleted` and
cascades to the settings row; a miss is a silent no-op. -/
def deleteTeam (s : DBState) (teamId : String) : DBState :=
  match findTeamById s teamId with
  | none => s
  | some team => deleteOrgSettingsRow (saveTeam s { team with markedDeleted := true }) teamId

/-- `addMemberToTeam(userId, teamId)`: looks the team up by primary key only
and rejects when the row is absent or its `deleted` column is set (the
`markedDeleted` flag is not consulted); the join is idempotent. -/
def addMemberToTeam (s : DBState) (userId teamId : String) (newId now : String) :
    Except ErrorCode (AddResult × DBState) :=
  match s.teams.find? (fun t => t.id == teamId) with
  | none => .error .NOT_FOUND
  | some team =>
    if team.deleted then .error .NOT_FOUND
    else
      match s.memberships.find?
          (fun m => m.teamId == teamId && m.userId == userId && !m.deleted) with
      | some _ => .ok (.alreadyMember, s)
      | none =>
        .ok (.added, { s with memberships := s.memberships ++
          [{ id := newId, teamId := team.id, userId := userId, role := TeamMemberRole.member,
             creationTime := now, deleted := false }] })

/-- `membershipRepo.count({ teamId, role: "owner", deleted: false })`. -/
def liveOwnerCount (s : DBState) (teamId : String) : Nat :=
  (s.memberships.filter
    (fun m => m.teamId == teamId && m.role == TeamMemberRole.owner && !m.deleted)).length

/-- `setTeamMemberRole(userId, teamId, role)`: for any non-owner target role
it counts all live owner rows of the organization (the target's own row is
not excluded) and throws `CONFLICT` when that count is ≤ 1, before even
looking the target membership up. -/
def setTeamMemberRole (s : DBState) (userId teamId : String) (role : TeamMemberRole) :
    Except ErrorCode DBState :=
  match s.teams.find? (fun t => t.id == teamId) with
  | none => .error .NOT_FOUND
  | some team =>
    if team.deleted then .error .NOT_FOUND
    else if role ≠ TeamMemberRole.owner ∧ liveOwnerCount s teamId ≤ 1 then .error .CONFLICT
    else
      match s.memberships.find?
          (fun m => m.teamId == teamId && m.userId == userId && !m.deleted) with
      | none => .error .NOT_FOUND
      | some m =>
        .ok { s with memberships :=
          s.memberships.map (fun x => if x.id == m.id then { m with role := role } else x) }

/-- The invites of a team that are currently valid and generic:
`(await inviteRepo.find({ teamId })).filter(i => i.invalidationTime === "" && !i.invitedEmail)`. -/
def genericValidInvites (s : DBState) (teamId : String) : List TeamMembershipInvite :=
  (s.invites.filter (fun i => i.teamId == teamId)).filter
    (fun i => i.invalidationTime == "" && i.invitedEmail == "")

/-- `findGenericInviteByTeamId`: the `[0]` of the filtered list. -/
def findGenericInviteByTeamId (s : DBState) (teamId : String) : Option TeamMembershipInvite :=
  (genericValidInvites s teamId).head?

/-- The first half of `resetGenericInvite`: invalidate the current generic
invite (UPDATE keyed on `id`) if one exists and is still valid. -/
def invalidateCurrentGeneric (s : DBState) (teamId now : String) : DBState :=
  match findGenericInviteByTeamId s teamId with
  | some invite =>
    if invite.invalidationTime == "" then
      { s with invites := (s.invites.map
          (fun (i : TeamMembershipInvite) =>
            if i.id == invite.id then { invite with invalidationTime := now } else i)) }
    else s
  | none => s

/-- The replacement invite inserted by `resetGenericInvite`: fresh id, role
hard-coded to `"member"`, empty invalidation time, no invited email. -/
def newGenericInvite (teamId newId now : String) : TeamMembershipInvite :=
  { id := newId, teamId := teamId, role := TeamMemberRole.member, creationTime := now,
    invalidationTime := "", invitedEmail := "" }

/-- `resetGenericInvite(teamId)`: invalidates the current generic invite if
one exists and is still valid, then inserts a fresh invite.  `newId` stands
for `uuidv4()` and `now` for `new Date().toISOString()`. -/
def resetGenericInvite (s : DBState) (teamId : String) (newId now : String) :
    TeamMembershipInvite × DBState :=
  (newGenericInvite teamId newId now,
   { invalidateCurrentGeneric s teamId now with
      invites := (invalidateCurrentGeneric s teamId now).invites ++
        [newGenericInvite teamId newId now] })

/-- N sequential `resetGenericInvite` calls; each list entry supplies the
fresh invite id and the timestamp of that call. -/
def resetN (s : DBState) (teamId : String) : List (String × String) → DBState
  | [] => s
  | p :: rest => resetN ((resetGenericInvite s teamId p.1 p.2).2) teamId rest

/-- `repo.findOne({ where: { orgId, deleted: false } })` on the settings table. -/
def findOrgSettingsRow (s : DBState) (orgId : String) : Option OrgSettings :=
  s.orgSettings.find? (fun r => r.orgId == orgId && !r.deleted)

/-- `setOrgSettings(orgId, settings)` with `settings.workspaceSharingDisabled`
optional (`Partial<OrganizationSettings>`).  The update branch assigns the
possibly-`undefined` input to the loaded entity and saves it; TypeORM's
`save` omits columns whose value is `undefined` from the UPDATE, so an
absent input field leaves the stored column unchanged — modelled by
`Option.getD` of the stored value.  The insert branch spreads the input
over the new row, the column default being `false`. -/
def setOrgSettings (s : DBState) (orgId : String) (wsd : Option Bool) : DBState :=
  match findOrgSettingsRow s orgId with
  | none =>
    { s with orgSettings := s.orgSettings ++
        [{ orgId := orgId, workspaceSharingDisabled := wsd.getD false, deleted := false }] }
  | some row =>
    { s with orgSettings := (s.orgSettings.map
        (fun r => if r.orgId == row.orgId
          then { row with workspaceSharingDisabled := wsd.getD row.workspaceSharingDisabled }
          else r)) }

/-- A row of `d_b_oidc_client_config` (Go side); `uuid.Nil` is modelled as
the empty string. -/
structure OIDCClientConfig where
  id : String
  organizationId : String
  issuer : String
  active : Bool
  deleted : Bool
  deriving DecidableEq

/-- The validation errors of the Go store (`errors.New(... must be set)`),
which the spec's taxonomy classifies as `InvalidArgument`. -/
inductive OIDCError where
  | invalidArgument
  deriving DecidableEq

/-- `CreateOIDCClientConfig` (Go): rejects a nil `ID` or empty `Issuer`,
then `Create(&cfg)` inserts the record exactly as given — including the
caller-supplied `Active` value. -/
def CreateOIDCClientConfig (configs : List OIDCClientConfig) (cfg : OIDCClientConfig) :
    Except OIDCError (OIDCClientConfig × List OIDCClientConfig) :=
  if cfg.id == "" then .error .invalidArgument
  else if cfg.issuer == "" then .error .invalidArgument
  else .ok (cfg, configs ++ [cfg])

/-- Projection used by concrete counterexamples: the `AddResult` of a
successful `addMemberToTeam` call. -/
def okAddResult : Except ErrorCode (AddResult × DBState) → Option AddResult
  | .ok (r, _) => some r
  | .error _ => none

/-- Live membership rows of a given (user, organization) pair. -/
def liveMembershipsFor (s : DBState) (userId teamId : String) : List TeamMembership :=
  s.memberships.filter (fun m => m.teamId == teamId && m.userId == userId && !m.deleted)

/-- The condition under which `addMemberToTeam` rejects with `NOT_FOUND`:
the row is absent, or its `deleted` column is set. -/
def teamAbsentOrDbDeleted (s : DBState) (teamId : String) : Bool :=
  match s.teams.find? (fun t => t.id == teamId) with
  | none => true
  | some t => t.deleted

/-- Number of currently valid generic invites of a team. -/
def validGenericCount (s : DBState) (teamId : String) : Nat :=
  (genericValidInvites s teamId).length

/-- An empty database. -/
def dbEmpty : DBState := { teams := [], memberships := [], invites := [], orgSettings := [] }

/-- Fixture: a live organization `org1` holding the slug `"acme"`. -/
def teamOrg1 : Team :=
  { id := "org1", name := "Acme", slug := "acme", creationTime := "t0",
    deleted := false, markedDeleted := false }

/-- Fixture: a second live organization `org2` holding the slug `"beta"`. -/
def teamOrg2 : Team :=
  { id := "org2", name := "Beta", slug := "beta", creationTime := "t0",
    deleted := false, markedDeleted := false }

/-- Fixture: `org1` with one live owner `A` and one live ordinary member `B`. -/
def sOneOwner : DBState :=
  { teams := [teamOrg1],
    memberships :=
      [{ id := "mA", teamId := "org1", userId := "A", role := TeamMemberRole.owner,
         creationTime := "t0", deleted := false },
       { id := "mB", teamId := "org1", userId := "B", role := TeamMemberRole.member,
         creationTime := "t1", deleted := false }],
    invites := [], orgSettings := [] }

/-- Fixture: `org1` alone, with no memberships, invites or settings. -/
def sOrg1 : DBState := { teams := [teamOrg1], memberships := [], invites := [], orgSettings := [] }

/-- Fixture: `org1` and `org2`, with no memberships. -/
def sTwoOrgs : DBState :=
  { teams := [teamOrg1, teamOrg2], memberships := [], invites := [], orgSettings := [] }

/-- Fixture: a live settings row for `org1` with sharing disabled. -/
def sSettings : DBState :=
  { teams := [], memberships := [], invites := [],
    orgSettings := [{ orgId := "org1", workspaceSharingDisabled := true, deleted := false }] }

/-- Fixture: a well-formed OIDC client config whose caller set `active`. -/
def cfgActive : OIDCClientConfig :=
  { id := "cfg1", organizationId := "org1", issuer := "https://accounts.example.com",
    active := true, deleted := false }

/-- Helper: `find?` skips a prefix in which nothing matches. -/
theorem find?_append_of_none {α : Type} (p : α → Bool) (l1 l2 : List α)
    (h : l1.find? p = none) : (l1 ++ l2).find? p = l2.find? p := by
  induction l1 with
  | nil => rfl
  | cons a t ih =>
    by_cases ha : p a
    · rw [List.find?_cons_of_pos _ ha] at h
      exact absurd h (by simp)
    · rw [List.find?_cons_of_neg _ ha] at h
      rw [List.cons_append, List.find?_cons_of_neg _ ha]
      exact ih h

/-- Helper: a filter of length at most one contains at most one element. -/
theorem eq_of_filter_length_le_one {α : Type} {p : α → Bool} {l : List α}
    (hlen : (l.filter p).length ≤ 1) {a b : α} (ha : a ∈ l) (hpa : p a)
    (hb : b ∈ l) (hpb : p b) : a = b := by
  have ha' : a ∈ l.filter p := List.mem_filter.mpr ⟨ha, hpa⟩
  have hb' : b ∈ l.filter p := List.mem_filter.mpr ⟨hb, hpb⟩
  rcases hf : l.filter p with _ | ⟨x, _ | ⟨y, r⟩⟩
  · rw [hf] at ha'
    exact absurd ha' (List.not_mem_nil a)
  · rw [hf] at ha' hb'
    simp only [List.mem_singleton] at ha' hb'
    rw [ha', hb']
  · rw [hf] at hlen
    simp at hlen

/-- Helper: deleting the settings row leaves the team table untouched. -/
theorem deleteOrgSettingsRow_teams (s : DBState) (orgId : String) :
    (deleteOrgSettingsRow s orgId).teams = s.teams := by
  unfold deleteOrgSettingsRow
  split <;> rfl

/-- C1 counterexample: in `sOneOwner` the target `B` is an ordinary member
and the organization has exactly one live owner, yet demoting `B` to
`"member"` throws `CONFLICT`, because the code counts all live owners
without excluding the target's row. -/
theorem setRole_demote_nonowner_conflict_cex :
    setTeamMemberRole sOneOwner "B" "org1" TeamMemberRole.member =
      .error ErrorCode.CONFLICT := by decide

/-- C1 (amended): for a live organization and a non-owner target role,
`setTeamMemberRole` throws `CONFLICT` exactly when the number of live owner
memberships of the organization — counted over all rows, not excluding the
target's current row — is at most one; in particular demoting a non-owner
member of a one-owner organization also fails with `CONFLICT`. -/
theorem setRole_conflict_iff_ownerCount (s : DBState) (userId teamId : String)
    (role : TeamMemberRole) (team : Team)
    (hfind : s.teams.find? (fun t => t.id == teamId) = some team)
    (hlive : team.deleted = false) (hrole : role ≠ TeamMemberRole.owner) :
    setTeamMemberRole s userId teamId role = .error ErrorCode.CONFLICT ↔
      liveOwnerCount s teamId ≤ 1 := by
  unfold setTeamMemberRole
  rw [hfind]
  simp only [hlive]
  by_cases hc : liveOwnerCount s teamId ≤ 1
  · rw [if_neg (by simp), if_pos ⟨hrole, hc⟩]
    simp [hc]
  · rw [if_neg (by simp), if_neg (by tauto)]
    rcases hm : s.memberships.find?
        (fun m => m.teamId == teamId && m.userId == userId && !m.deleted) with _ | m <;>
      simp [hm, hc]

/-- C1 witness: the amended biconditional applied to the concrete one-owner
state, with every hypothesis discharged. -/
theorem setRole_conflict_iff_ownerCount_witness :
    setTeamMemberRole sOneOwner "A" "org1" TeamMemberRole.member =
      .error ErrorCode.CONFLICT :=
  (setRole_conflict_iff_ownerCount sOneOwner "A" "org1" TeamMemberRole.member teamOrg1
    (by decide) (by decide) (by decide)).mpr (by decide)

/-- Helper: the silent no-op branch of `deleteTeam`. -/
theorem deleteTeam_of_find_none (s : DBState) (teamId : String)
    (h : findTeamById s teamId = none) : deleteTeam s teamId = s := by
  unfold deleteTeam
  rw [h]

/-- Helper: the marking branch of `deleteTeam`. -/
theorem deleteTeam_of_find_some (s : DBState) (teamId : String) (team : Team)
    (h : findTeamById s teamId = some team) :
    deleteTeam s teamId =
      deleteOrgSettingsRow (saveTeam s { team with markedDeleted := true }) teamId := by
  unfold deleteTeam
  rw [h]

/-- C9: `deleteTeam` on an organization id that is absent or already
soft-deleted is a silent no-op returning the state unchanged, and deleting
the same organization twice equals deleting it once. -/
theorem deleteTeam_noop_and_idempotent (s : DBState) (teamId : String) :
    (findTeamById s teamId = none → deleteTeam s teamId = s) ∧
      deleteTeam (deleteTeam s teamId) teamId = deleteTeam s teamId := by
  refine ⟨deleteTeam_of_find_none s teamId, ?_⟩
  rcases h : findTeamById s teamId with _ | team
  · rw [deleteTeam_of_find_none s teamId h]
    exact deleteTeam_of_find_none s teamId h
  · have hpred := List.find?_some
      (p := fun (t : Team) => t.id == teamId && !t.deleted && !t.markedDeleted)
      (by unfold findTeamById at h; exact h)
    simp only [Bool.and_eq_true, beq_iff_eq, Bool.not_eq_eq_eq_not, Bool.not_true] at hpred
    obtain ⟨⟨hid, hdel⟩, hmark⟩ := hpred
    have hafter : findTeamById (deleteTeam s teamId) teamId = none := by
      rw [deleteTeam_of_find_some s teamId team h]
      unfold findTeamById
      rw [deleteOrgSettingsRow_teams]
      rw [List.find?_eq_none]
      intro x hx
      unfold saveTeam at hx
      simp only [List.mem_map] at hx
      obtain ⟨y, hy, rfl⟩ := hx
      by_cases hyid : y.id = teamId
      · simp [hyid, hid]
      · simp [hid, hyid]
    exact deleteTeam_of_find_none _ _ hafter

/-- C9 witness: deleting a missing organization in the empty database is a
no-op, and the double delete of `org1` equals the single delete. -/
theorem deleteTeam_noop_and_idempotent_witness :
    deleteTeam dbEmpty "org1" = dbEmpty ∧
      deleteTeam (deleteTeam sOrg1 "org1") "org1" = deleteTeam sOrg1 "org1" :=
  ⟨(deleteTeam_noop_and_idempotent dbEmpty "org1").1 (by decide),
   (deleteTeam_noop_and_idempotent sOrg1 "org1").2⟩

/-- C3 counterexample: `deleteTeam` soft-deletes `org1` by setting
`markedDeleted`, but `addMemberToTeam` checks only the `deleted` column, so
joining the soft-deleted organization succeeds with `"added"` instead of
failing with `NOT_FOUND`. -/
theorem addMember_after_deleteTeam_cex :
    okAddResult (addMemberToTeam (deleteTeam sOrg1 "org1") "U" "org1" "m1" "t1") =
      some AddResult.added := by decide

/-- C3 (amended): `addMemberToTeam` fails with `NOT_FOUND` exactly when the
organization row is absent or its `deleted` column is set; an organization
soft-deleted by `deleteTeam` (which sets only `markedDeleted`) is still
accepted. -/
theorem addMember_notfound_iff (s : DBState) (userId teamId newId now : String) :
    addMemberToTeam s userId teamId newId now = .error ErrorCode.NOT_FOUND ↔
      teamAbsentOrDbDeleted s teamId = true := by
  unfold addMemberToTeam teamAbsentOrDbDeleted
  rcases h : s.teams.find? (fun t => t.id == teamId) with _ | team <;> rw [h]
  · simp
  · by_cases hd : team.deleted
    · simp [hd]
    · rcases hm : s.memberships.find?
          (fun m => m.teamId == teamId && m.userId == userId && !m.deleted) with _ | m <;>
        simp [hm, hd]

/-- C3 witness: the amended characterisation applied to the empty database,
where the lookup misses and `add` does report `NOT_FOUND`. -/
theorem addMember_notfound_iff_witness :
    addMemberToTeam dbEmpty "U" "org1" "m1" "t1" = .error ErrorCode.NOT_FOUND :=
  (addMember_notfound_iff dbEmpty "U" "org1" "m1" "t1").mpr (by decide)

/-- C7: joining a live organization twice in a row: from a state where the
user has no live membership, the first `addMemberToTeam` returns `"added"`,
the second returns `"already_member"` without changing the state further,
and exactly one live membership row for the pair exists afterwards. -/
theorem addMember_idempotent_join (s : DBState) (userId teamId newId now newId2 now2 : String)
    (team : Team) (hfind : s.teams.find? (fun t => t.id == teamId) = some team)
    (hlive : team.deleted = false)
    (hnone : liveMembershipsFor s userId teamId = []) :
    ∃ s1, addMemberToTeam s userId teamId newId now = .ok (AddResult.added, s1) ∧
      addMemberToTeam s1 userId teamId newId2 now2 = .ok (AddResult.alreadyMember, s1) ∧
      (liveMembershipsFor s1 userId teamId).length = 1 := by
  have hid : team.id = teamId := by
    have hp := List.find?_some hfind
    simpa using hp
  unfold liveMembershipsFor at hnone
  have hm : s.memberships.find?
      (fun m => m.teamId == teamId && m.userId == userId && !m.deleted) = none :=
    List.find?_eq_none.mpr (List.filter_eq_nil_iff.mp hnone)
  refine ⟨{ s with memberships := s.memberships ++
      [{ id := newId, teamId := team.id, userId := userId, role := TeamMemberRole.member,
         creationTime := now, deleted := false }] }, ?_, ?_, ?_⟩
  · unfold addMemberToTeam
    rw [hfind]
    simp only [hlive, Bool.false_eq_true, if_false]
    rw [hm]
  · unfold addMemberToTeam
    simp only []
    rw [hfind]
    simp only [hlive, Bool.false_eq_true, if_false]
    rw [find?_append_of_none _ _ _ hm, List.find?_cons_of_pos _ (by simp [hid])]
  · unfold liveMembershipsFor
    simp only [List.filter_append, hnone, List.nil_append]
    simp [hid]

/-- C7 witness: the idempotent join applied to the concrete state `sOrg1`
with the fresh user `U`. -/
theorem addMember_idempotent_join_witness :
    ∃ s1, addMemberToTeam sOrg1 "U" "org1" "m1" "t1" = .ok (AddResult.added, s1) ∧
      addMemberToTeam s1 "U" "org1" "m2" "t2" = .ok (AddResult.alreadyMember, s1) ∧
      (liveMembershipsFor s1 "U" "org1").length = 1 :=
  addMember_idempotent_join sOrg1 "U" "org1" "m1" "t1" "m2" "t2" teamOrg1
    (by decide) (by decide) (by decide)

/-- C2 counterexample: running only the first half of `createTeam` — the
transaction, which commits before the membership write even starts — on the
empty database yields a visible organization row while the membership table
is still empty, so an execution cancelled between the two writes violates
the claimed atomicity. -/
theorem createTeam_not_atomic_cex :
    (createTeamTx dbEmpty "Acme" "org-1" "ffff" "t0").toOption.map
        (fun r => ((findTeamById r.2 "org-1").isSome, r.2.memberships.length)) =
      some (true, 0) := by decide

/-- C2 (amended): `createTeam` commits the organization row in one
transaction and inserts the owner membership in a separate later write; a
run that completes both steps yields the organization together with exactly
one live owner membership row for the creator, but the two writes are not
one atomic unit. -/
theorem createTeam_full_run (s : DBState) (userId name newTeamId memId suffix now : String)
    (h1 : ¬ name = "") (h2 : 3 ≤ (trimStr name).length) (h3 : (trimStr name).length ≤ 64)
    (h4 : 3 ≤ (slugifyStr (trimStr name)).length)
    (hft : ∀ t ∈ s.teams, t.id ≠ newTeamId)
    (hfm : ∀ m ∈ s.memberships, m.teamId ≠ newTeamId) :
    ∃ team s', createTeam s userId name newTeamId memId suffix now = .ok (team, s') ∧
      findTeamById s' newTeamId = some team ∧
      liveMembershipsFor s' userId newTeamId =
        [{ id := memId, teamId := newTeamId, userId := userId, role := TeamMemberRole.owner,
           creationTime := now, deleted := false }] := by
  have htx : createTeamTx s name newTeamId suffix now =
      .ok (newTeamRow s name newTeamId suffix now,
        { s with teams := s.teams ++ [newTeamRow s name newTeamId suffix now] }) := by
    unfold createTeamTx
    rw [if_neg (by simpa using h1), if_neg (by omega), if_neg (by omega), if_neg (by omega)]
  refine ⟨newTeamRow s name newTeamId suffix now,
    createTeamMembershipStep
      { s with teams := s.teams ++ [newTeamRow s name newTeamId suffix now] } userId
      (newTeamRow s name newTeamId suffix now) memId, ?_, ?_, ?_⟩
  · unfold createTeam
    rw [htx]
  · unfold findTeamById createTeamMembershipStep
    simp only []
    rw [find?_append_of_none _ _ _
      (List.find?_eq_none.mpr (fun t ht => by simp [newTeamRow, hft t ht]))]
    rw [List.find?_cons_of_pos _ (by simp [newTeamRow])]
  · unfold liveMembershipsFor createTeamMembershipStep
    simp only [List.filter_append]
    rw [List.filter_eq_nil_iff.mpr (fun m hm => by simp [hfm m hm])]
    simp [newTeamRow]

/-- C2 witness: the completed run on the empty database, every validation
hypothesis discharged on the concrete name `"Acme"`. -/
theorem createTeam_full_run_witness :
    ∃ team s', createTeam dbEmpty "U" "Acme" "org-1" "m1" "ffff" "t0" = .ok (team, s') ∧
      findTeamById s' "org-1" = some team ∧
      liveMembershipsFor s' "U" "org-1" =
        [{ id := "m1", teamId := "org-1", userId := "U", role := TeamMemberRole.owner,
           creationTime := "t0", deleted := false }] :=
  createTeam_full_run dbEmpty "U" "Acme" "org-1" "m1" "ffff" "t0" (by decide) (by decide)
    (by decide) (by decide) (by decide) (by decide)

/-- Helper: the name block of `updateTeam` succeeds whenever the supplied
name is absent, blank or within the 32-character bound. -/
theorem applyNameUpdate_ok (existingTeam : Team) (name : Option String)
    (hname : ∀ n, name = some n → n ≠ "" → n.length ≤ 32) :
    ∃ t1, applyNameUpdate existingTeam name = .ok t1 := by
  unfold applyNameUpdate
  rcases name with _ | n
  · simp [optTruthy]
  · by_cases hn : n = ""
    · simp [optTruthy, hn]
    · have h32 := hname n rfl hn
      rw [if_pos (by simp [optTruthy, hn])]
      rw [if_neg (by simp only [Option.getD_some]; omega)]
      exact ⟨_, rfl⟩

/-- C5 counterexample: renaming `org1` to the slug `"beta"`, already held by
the live organization `org2`, fails with `INVALID_VALUE` — the spec's
`InvalidArgument` kind — which is not the `CONFLICT` kind. -/
theorem updateTeam_slug_collision_cex :
    updateTeam sTwoOrgs "org1" none (some "beta") = .error ErrorCode.INVALID_VALUE ∧
      ErrorCode.INVALID_VALUE ≠ ErrorCode.CONFLICT := by decide

/-- C5 (amended): in `updateTeam`, a new slug that collides with another
live organization's slug is rejected with `INVALID_VALUE` (the
`InvalidArgument` kind, not `Conflict`), and a target organization that is
absent or soft-deleted is rejected with `NOT_FOUND` whenever the request
carries any update. -/
theorem updateTeam_collision_and_notfound (s : DBState) (teamId : String)
    (newName newSlug : Option String) (existingTeam : Team) (s2 : String) :
    ((s.teams.find? (fun t => t.id == teamId && !t.deleted && !t.markedDeleted) =
          some existingTeam →
        newSlug.map trimStr = some s2 → s2 ≠ "" → s2 ≠ existingTeam.slug →
        s2.length ≤ 63 → isSlugChars s2 = true →
        (s.teams.find? (fun t => t.slug == s2 && !t.deleted && !t.markedDeleted)).isSome = true →
        (∀ n, newName.map trimStr = some n → n ≠ "" → n.length ≤ 32) →
        updateTeam s teamId newName newSlug = .error ErrorCode.INVALID_VALUE) ∧
      ((optTruthy (newName.map trimStr) || optTruthy (newSlug.map trimStr)) = true →
        s.teams.find? (fun t => t.id == teamId && !t.deleted && !t.markedDeleted) = none →
        updateTeam s teamId newName newSlug = .error ErrorCode.NOT_FOUND)) := by
  constructor
  · intro hfind hslug hs2 hdiff hlen hchars hcol hname
    obtain ⟨t1, ht1⟩ := applyNameUpdate_ok existingTeam (newName.map trimStr) hname
    have hsl : applySlugUpdate s existingTeam t1 (newSlug.map trimStr) =
        .error ErrorCode.INVALID_VALUE := by
      unfold applySlugUpdate
      rw [hslug]
      simp only [Option.getD_some]
      rw [if_pos (by simp [optTruthy, hs2, hdiff])]
      rw [if_neg (by omega)]
      rw [if_neg (by simp [hchars])]
      rw [if_pos (by simpa using hcol)]
    unfold updateTeam
    rw [if_neg (by simp [hslug, optTruthy, hs2])]
    rw [hfind]
    simp only []
    rw [if_neg (by rw [hslug]; intro hc; exact hdiff (by simpa using hc.2))]
    rw [ht1]
    simp only [Except.bind]
    rw [hsl]
  · intro hupd hmiss
    unfold updateTeam
    rw [if_neg (by simp [hupd])]
    rw [hmiss]

/-- C5 witness: both rejection branches applied at concrete states — the
collision in `sTwoOrgs` and the missing organization in the empty
database. -/
theorem updateTeam_collision_and_notfound_witness :
    updateTeam sTwoOrgs "org1" none (some "beta") = .error ErrorCode.INVALID_VALUE ∧
      updateTeam dbEmpty "org1" none (some "beta") = .error ErrorCode.NOT_FOUND :=
  ⟨(updateTeam_collision_and_notfound sTwoOrgs "org1" none (some "beta") teamOrg1 "beta").1
      (by decide) (by decide) (by decide) (by decide) (by decide) (by decide) (by decide)
      (by intro n h hn; simp at h),
   (updateTeam_collision_and_notfound dbEmpty "org1" none (some "beta") teamOrg1 "beta").2
      (by decide) (by decide)⟩

/-- C8 counterexample: a well-formed config whose caller set `active = true`
is inserted with `active = true`; the create operation does not force the
flag to `false`. -/
theorem createOIDC_active_preserved_cex :
    CreateOIDCClientConfig [] cfgActive = .ok (cfgActive, [cfgActive]) ∧
      cfgActive.active = true := by decide

/-- C8 (amended): `CreateOIDCClientConfig` fails with `InvalidArgument`
exactly when the id is nil or the issuer is empty; otherwise it inserts the
record exactly as supplied, including the caller's `active` flag (the flag
is `false` only when the caller left it unset, via the column default). -/
theorem createOIDC_validation_iff (configs : List OIDCClientConfig) (cfg : OIDCClientConfig) :
    (CreateOIDCClientConfig configs cfg = .error OIDCError.invalidArgument ↔
        (cfg.id = "" ∨ cfg.issuer = "")) ∧
      (cfg.id ≠ "" → cfg.issuer ≠ "" →
        CreateOIDCClientConfig configs cfg = .ok (cfg, configs ++ [cfg])) := by
  unfold CreateOIDCClientConfig
  by_cases h1 : cfg.id = "" <;> by_cases h2 : cfg.issuer = "" <;> simp [h1, h2]

/-- C8 witness: the validated insert applied to the concrete config with
`active` already set. -/
theorem createOIDC_validation_iff_witness :
    CreateOIDCClientConfig [] cfgActive = .ok (cfgActive, [cfgActive]) :=
  (createOIDC_validation_iff [] cfgActive).2 (by decide) (by decide)

/-- Helper: replacing the rows holding a unique key by a live row with the
same key moves `find?` for that key from the old row to the new one. -/
theorem find?_map_replace_key (l : List OrgSettings) (orgId : String) (row row' : OrgSettings)
    (hfind : l.find? (fun r => r.orgId == orgId && !r.deleted) = some row)
    (hall : ∀ x ∈ l, x.orgId = orgId → x = row)
    (hro : row.orgId = orgId) (hro' : row'.orgId = orgId) (hrd' : row'.deleted = false) :
    (l.map (fun r => if r.orgId == row.orgId then row' else r)).find?
      (fun r => r.orgId == orgId && !r.deleted) = some row' := by
  induction l with
  | nil => simp at hfind
  | cons a t ih =>
    by_cases hao : a.orgId = orgId
    · have ha : a = row := hall a (by simp) hao
      subst ha
      simp only [List.map_cons]
      rw [if_pos (by simp)]
      rw [List.find?_cons_of_pos _ (by simp [hro', hrd'])]
    · simp only [List.map_cons]
      rw [if_neg (by simp [hro]; exact hao)]
      rw [List.find?_cons_of_neg _ (by simp [hao])]
      rw [List.find?_cons_of_neg _ (by simp [hao])] at hfind
      exact ih hfind (fun x hx hxo => hall x (List.mem_cons_of_mem a hx) hxo)

/-- C4: on an existing live settings row (whose `orgId` key is unique in the
table), `setOrgSettings` follows partial-update semantics: an input that
omits `workspaceSharingDisabled` leaves the state entirely unchanged, an
input that supplies it updates exactly that field of the row — `orgId` and
`deleted` keep their values — and rows of other organizations are never
touched. -/
theorem setOrgSettings_partial_update (s : DBState) (orgId : String) (row : OrgSettings)
    (hfind : findOrgSettingsRow s orgId = some row)
    (huniq : (s.orgSettings.filter (fun r => r.orgId == orgId)).length ≤ 1) :
    setOrgSettings s orgId none = s ∧
      (∀ b, findOrgSettingsRow (setOrgSettings s orgId (some b)) orgId =
        some { row with workspaceSharingDisabled := b }) ∧
      (∀ b r, r ∈ s.orgSettings → r.orgId ≠ orgId →
        r ∈ (setOrgSettings s orgId (some b)).orgSettings) := by
  have hfind' : s.orgSettings.find? (fun r => r.orgId == orgId && !r.deleted) = some row := by
    unfold findOrgSettingsRow at hfind
    exact hfind
  have hmem := List.mem_of_find?_eq_some hfind'
  have hp := List.find?_some hfind'
  simp only [Bool.and_eq_true, beq_iff_eq, Bool.not_eq_eq_eq_not, Bool.not_true] at hp
  obtain ⟨hro, hrd⟩ := hp
  have hall : ∀ x ∈ s.orgSettings, x.orgId = orgId → x = row := by
    intro x hx hxo
    exact eq_of_filter_length_le_one huniq hx (by simp [hxo]) hmem (by simp [hro])
  refine ⟨?_, ?_, ?_⟩
  · unfold setOrgSettings
    rw [hfind]
    simp only [Option.getD_none]
    have hmap : (s.orgSettings.map
        (fun r => if r.orgId == row.orgId
          then { row with workspaceSharingDisabled := row.workspaceSharingDisabled }
          else r)) = s.orgSettings := by
      have := List.map_congr_left (l := s.orgSettings)
        (g := id)
        (f := fun r => if r.orgId == row.orgId
          then { row with workspaceSharingDisabled := row.workspaceSharingDisabled }
          else r)
        (by
          intro x hx
          show (if (x.orgId == row.orgId) = true
            then { row with workspaceSharingDisabled := row.workspaceSharingDisabled }
            else x) = id x
          by_cases hxo : x.orgId = orgId
          · rw [if_pos (by simp [hxo, hro])]
            rw [hall x hx hxo]
            rfl
          · rw [if_neg (by simp [hro]; exact hxo)]
            rfl)
      rw [this, List.map_id]
    rw [hmap]
  · intro b
    unfold setOrgSettings
    rw [hfind]
    simp only [Option.getD_some]
    unfold findOrgSettingsRow
    exact find?_map_replace_key s.orgSettings orgId row
      { row with workspaceSharingDisabled := b } hfind' hall hro (by simp [hro]) (by simp [hrd])
  · intro b r hr hrne
    unfold setOrgSettings
    rw [hfind]
    refine List.mem_map.mpr ⟨r, hr, ?_⟩
    rw [if_neg (by simp [hro]; exact hrne)]

/-- C4 witness: the partial update applied to the concrete settings row of
`sSettings`: omitting the field is a no-op, and supplying `false` flips
exactly the sharing flag. -/
theorem setOrgSettings_partial_update_witness :
    setOrgSettings sSettings "org1" none = sSettings ∧
      findOrgSettingsRow (setOrgSettings sSettings "org1" (some false)) "org1" =
        some { orgId := "org1", workspaceSharingDisabled := false, deleted := false } := by
  have h := setOrgSettings_partial_update sSettings "org1"
    { orgId := "org1", workspaceSharingDisabled := true, deleted := false }
    (by decide) (by decide)
  exact ⟨h.1, h.2.1 false⟩

/-- Helper: appending the fresh generic invite raises the valid count by one. -/
theorem validGenericCount_append_new (s1 : DBState) (teamId newId now : String) :
    validGenericCount
        { s1 with invites := s1.invites ++ [newGenericInvite teamId newId now] } teamId =
      validGenericCount s1 teamId + 1 := by
  unfold validGenericCount genericValidInvites newGenericInvite
  simp [List.filter_append]

/-- Helper: invalidating the current generic invite leaves no valid generic
invite, provided the at-most-one invariant held and the timestamp is not
the empty string. -/
theorem invalidateCurrentGeneric_count (s : DBState) (teamId now : String)
    (hnow : now ≠ "") (hc : validGenericCount s teamId ≤ 1) :
    validGenericCount (invalidateCurrentGeneric s teamId now) teamId = 0 := by
  rcases h : findGenericInviteByTeamId s teamId with _ | inv
  · have hnil : genericValidInvites s teamId = [] := by
      unfold findGenericInviteByTeamId at h
      exact List.head?_eq_none_iff.mp h
    have hval : validGenericCount s teamId = 0 := by
      unfold validGenericCount
      rw [hnil]
      rfl
    unfold invalidateCurrentGeneric
    rw [h]
    exact hval
  · have hmemVal : inv ∈ genericValidInvites s teamId := by
      unfold findGenericInviteByTeamId at h
      exact List.mem_of_mem_head? h
    have hlist : genericValidInvites s teamId = [inv] := by
      unfold validGenericCount at hc
      rcases hg : genericValidInvites s teamId with _ | ⟨x, rest⟩
      · rw [hg] at hmemVal
        exact absurd hmemVal (List.not_mem_nil inv)
      · have hx : x = inv := by
          unfold findGenericInviteByTeamId at h
          rw [hg] at h
          simpa using h
        rcases rest with _ | ⟨y, r2⟩
        · rw [hx]
        · rw [hg] at hc
          simp at hc
    have hmemChain := hmemVal
    unfold genericValidInvites at hmemChain
    obtain ⟨hmemP, hQ⟩ := List.mem_filter.mp hmemChain
    obtain ⟨hmemL, hP⟩ := List.mem_filter.mp hmemP
    simp only [Bool.and_eq_true, beq_iff_eq] at hQ hP
    unfold invalidateCurrentGeneric
    simp only [h]
    rw [if_pos (by simp [hQ.1])]
    unfold validGenericCount genericValidInvites
    simp only []
    rw [List.length_eq_zero, List.filter_eq_nil_iff]
    intro x hx
    obtain ⟨hxm, hxP⟩ := List.mem_filter.mp hx
    obtain ⟨i, hi, rfl⟩ := List.mem_map.mp hxm
    by_cases hid : (i.id == inv.id) = true
    · rw [if_pos hid] at hxP ⊢
      simp [hnow]
    · rw [if_neg hid] at hxP ⊢
      intro hQi
      have hiVal : i ∈ genericValidInvites s teamId := by
        unfold genericValidInvites
        exact List.mem_filter.mpr ⟨List.mem_filter.mpr ⟨hi, hxP⟩, hQi⟩
      rw [hlist] at hiVal
      simp only [List.mem_singleton] at hiVal
      exact hid (by rw [hiVal]; simp)

/-- Helper: one reset always ends with exactly one valid generic invite. -/
theorem resetGenericInvite_count (s : DBState) (teamId newId now : String)
    (hnow : now ≠ "") (hc : validGenericCount s teamId ≤ 1) :
    validGenericCount (resetGenericInvite s teamId newId now).2 teamId = 1 := by
  have h0 := invalidateCurrentGeneric_count s teamId now hnow hc
  show validGenericCount
    { invalidateCurrentGeneric s teamId now with
      invites := (invalidateCurrentGeneric s teamId now).invites ++
        [newGenericInvite teamId newId now] } teamId = 1
  rw [validGenericCount_append_new, h0]

/-- Helper: invalidation rewrites rows in place, keeping the row count. -/
theorem invalidateCurrentGeneric_length (s : DBState) (teamId now : String) :
    (invalidateCurrentGeneric s teamId now).invites.length = s.invites.length := by
  unfold invalidateCurrentGeneric
  split
  · split
    · simp
    · rfl
  · rfl

/-- Helper: one reset grows the invite table by exactly one row. -/
theorem resetGenericInvite_length (s : DBState) (teamId newId now : String) :
    (resetGenericInvite s teamId newId now).2.invites.length = s.invites.length + 1 := by
  show ((invalidateCurrentGeneric s teamId now).invites ++
    [newGenericInvite teamId newId now]).length = s.invites.length + 1
  rw [List.length_append, invalidateCurrentGeneric_length]
  rfl

/-- Helper: invalidation never drops a row — every pre-existing invite id is
still present afterwards. -/
theorem invalidateCurrentGeneric_preserves_ids (s : DBState) (teamId now : String) :
    ∀ i ∈ s.invites, ∃ j ∈ (invalidateCurrentGeneric s teamId now).invites, j.id = i.id := by
  intro i hi
  unfold invalidateCurrentGeneric
  rcases h : findGenericInviteByTeamId s teamId with _ | inv
  · exact ⟨i, hi, rfl⟩
  · simp only [h]
    by_cases hv : (inv.invalidationTime == "") = true
    · rw [if_pos hv]
      refine ⟨if (i.id == inv.id) = true
          then { inv with invalidationTime := now } else i,
        List.mem_map_of_mem _ hi, ?_⟩
      by_cases hid : (i.id == inv.id) = true
      · rw [if_pos hid]
        simp only [beq_iff_eq] at hid
        exact hid.symm
      · rw [if_neg hid]
    · rw [if_neg hv]
      exact ⟨i, hi, rfl⟩

/-- Helper: one reset never drops a row. -/
theorem resetGenericInvite_preserves_ids (s : DBState) (teamId newId now : String) :
    ∀ i ∈ s.invites, ∃ j ∈ (resetGenericInvite s teamId newId now).2.invites, j.id = i.id := by
  intro i hi
  obtain ⟨j, hj, hjid⟩ := invalidateCurrentGeneric_preserves_ids s teamId now i hi
  exact ⟨j, List.mem_append_left _ hj, hjid⟩

/-- Helper: the reset's fresh invite is the last row of the table. -/
theorem resetGenericInvite_getLast (s : DBState) (teamId newId now : String) :
    (resetGenericInvite s teamId newId now).2.invites.getLast? =
      some (newGenericInvite teamId newId now) := by
  show ((invalidateCurrentGeneric s teamId now).invites ++
    [newGenericInvite teamId newId now]).getLast? = some (newGenericInvite teamId newId now)
  exact List.getLast?_concat _

/-- Helper: N sequential resets keep the at-most-one invariant, and
establish exactly-one as soon as at least one reset ran. -/
theorem resetN_count_aux (teamId : String) (ps : List (String × String)) :
    ∀ s, validGenericCount s teamId ≤ 1 → (∀ p ∈ ps, p.2 ≠ "") →
      validGenericCount (resetN s teamId ps) teamId ≤ 1 ∧
        (ps ≠ [] → validGenericCount (resetN s teamId ps) teamId = 1) := by
  induction ps with
  | nil =>
    intro s hc _
    exact ⟨hc, fun h => absurd rfl h⟩
  | cons p rest ih =>
    intro s hc hts
    have h1 : validGenericCount (resetGenericInvite s teamId p.1 p.2).2 teamId = 1 :=
      resetGenericInvite_count s teamId p.1 p.2 (hts p (by simp)) hc
    have h2 := ih (resetGenericInvite s teamId p.1 p.2).2 (by omega)
      (fun q hq => hts q (List.mem_cons_of_mem p hq))
    constructor
    · show validGenericCount (resetN (resetGenericInvite s teamId p.1 p.2).2 teamId rest)
        teamId ≤ 1
      exact h2.1
    · intro _
      show validGenericCount (resetN (resetGenericInvite s teamId p.1 p.2).2 teamId rest)
        teamId = 1
      rcases rest with _ | ⟨q, r2⟩
      · exact h1
      · exact h2.2 (by simp)

/-- Helper: `resetN` splits over list concatenation. -/
theorem resetN_append (teamId : String) (a b : List (String × String)) :
    ∀ s, resetN s teamId (a ++ b) = resetN (resetN s teamId a) teamId b := by
  induction a with
  | nil => intro s; rfl
  | cons p rest ih =>
    intro s
    show resetN (resetGenericInvite s teamId p.1 p.2).2 teamId (rest ++ b) = _
    rw [ih]
    rfl

/-- Helper: N resets add exactly N rows to the invite table. -/
theorem resetN_length (teamId : String) (ps : List (String × String)) :
    ∀ s, (resetN s teamId ps).invites.length = s.invites.length + ps.length := by
  induction ps with
  | nil => intro s; rfl
  | cons p rest ih =>
    intro s
    show (resetN (resetGenericInvite s teamId p.1 p.2).2 teamId rest).invites.length = _
    rw [ih, resetGenericInvite_length]
    simp only [List.length_cons]
    omega

/-- Helper: N resets never drop a pre-existing invite row. -/
theorem resetN_preserves_ids (teamId : String) (ps : List (String × String)) :
    ∀ s, ∀ i ∈ s.invites, ∃ j ∈ (resetN s teamId ps).invites, j.id = i.id := by
  induction ps with
  | nil => intro s i hi; exact ⟨i, hi, rfl⟩
  | cons p rest ih =>
    intro s i hi
    obtain ⟨j, hj, hjid⟩ := resetGenericInvite_preserves_ids s teamId p.1 p.2 i hi
    obtain ⟨k, hk, hkid⟩ := ih (resetGenericInvite s teamId p.1 p.2).2 j hj
    exact ⟨k, hk, hkid.trans hjid⟩

/-- C6: starting from any state satisfying the at-most-one-valid-generic
invariant, N ≥ 1 sequential resets with non-empty timestamps leave exactly
one valid generic invite for the organization — the one inserted by the
last reset, carrying its fresh identifier, so every earlier generic invite
has a non-empty invalidation time — while the invite table grows by exactly
N rows and every pre-existing invite row is still present (no row is ever
physically deleted). -/
theorem resetN_invite_invariant (s : DBState) (teamId : String)
    (ps : List (String × String)) (newId now : String)
    (hc : validGenericCount s teamId ≤ 1)
    (hts : ∀ p ∈ ps, p.2 ≠ "") (hnow : now ≠ "") :
    validGenericCount (resetN s teamId (ps ++ [(newId, now)])) teamId = 1 ∧
      (resetN s teamId (ps ++ [(newId, now)])).invites.getLast? =
        some (newGenericInvite teamId newId now) ∧
      (resetN s teamId (ps ++ [(newId, now)])).invites.length =
        s.invites.length + (ps.length + 1) ∧
      ∀ i ∈ s.invites, ∃ j ∈ (resetN s teamId (ps ++ [(newId, now)])).invites, j.id = i.id := by
  have hts' : ∀ p ∈ ps ++ [(newId, now)], p.2 ≠ "" := by
    intro p hp
    rcases List.mem_append.mp hp with hl | hr
    · exact hts p hl
    · simp only [List.mem_singleton] at hr
      rw [hr]
      exact hnow
  refine ⟨?_, ?_, ?_, ?_⟩
  · exact (resetN_count_aux teamId (ps ++ [(newId, now)]) s hc hts').2 (by simp)
  · rw [resetN_append]
    show (resetGenericInvite (resetN s teamId ps) teamId newId now).2.invites.getLast? = _
    exact resetGenericInvite_getLast _ _ _ _
  · rw [resetN_length]
    simp
  · exact resetN_preserves_ids teamId (ps ++ [(newId, now)]) s

/-- C6 witness: two sequential resets on `sOrg1` (which starts with no
invites), with concrete ids and timestamps, every hypothesis discharged. -/
theorem resetN_invite_invariant_witness :
    validGenericCount (resetN sOrg1 "org1" ([("i1", "T1")] ++ [("i2", "T2")])) "org1" = 1 ∧
      (resetN sOrg1 "org1" ([("i1", "T1")] ++ [("i2", "T2")])).invites.getLast? =
        some (newGenericInvite "org1" "i2" "T2") ∧
      (resetN sOrg1 "org1" ([("i1", "T1")] ++ [("i2", "T2")])).invites.length =
        sOrg1.invites.length + (1 + 1) ∧
      ∀ i ∈ sOrg1.invites,
        ∃ j ∈ (resetN sOrg1 "org1" ([("i1", "T1")] ++ [("i2", "T2")])).invites, j.id = i.id :=
  resetN_invite_invariant sOrg1 "org1" [("i1", "T1")] "i2" "T2"
    (by decide) (by decide) (by decide)

/-- C10: the replacement invite created by `resetGenericInvite` always has
role `"member"`, whatever role the previous generic invite carried, and it
is exactly the row appended to the invite table. -/
theorem resetGenericInvite_role_member (s : DBState) (teamId newId now : String) :
    (resetGenericInvite s teamId newId now).1.role = TeamMemberRole.member ∧
      (resetGenericInvite s teamId newId now).2.invites.getLast? =
        some (resetGenericInvite s teamId newId now).1 := by
  constructor
  · rfl
  · simp [resetGenericInvite, List.getLast?_concat]

end Gitpod
